import Mathlib

/-!
BitVault broadcast bot: verification of the broadcast engine and scheduler.

Shallow embedding of the core of the repository:

* `src/bot.js` — the `BitVaultTelegramBot` class: `initialize`,
  `sendMessageWithRetry`, `broadcastUpdate`, `getStatus`.
* `src/scheduler.js` — the `TelegramScheduler` class: `scheduleDailyUpdate`,
  `scheduleCustomMessage`, `stopJob`, `stop`, `getStatus`, and the job bodies.

External collaborators (the Telegram transport, `node-cron`'s grammar
validator, the configuration module, the logger) are modelled as explicit
parameters: the transport as an oracle `Nat → SendOutcome` indexed by the
attempt number, cron validation as a predicate `String → Bool`, configuration
as a record of `Option String` fields (JavaScript truthiness of a string is
"present and non-empty"), and logging is elided except where a claim needs
the fact that a value was only logged.
-/

deriving instance DecidableEq for Except

namespace BitVault

/-- Configuration as seen by the engine (`src/config` collaborator).
`none` models a missing/undefined environment variable; `some ""` models an
empty one. Both are falsy in the JavaScript truthiness tests the code uses. -/
structure Config where
  botToken : Option String
  channelId : Option String
  deriving DecidableEq, Repr

/-- JavaScript truthiness of an optional string: truthy iff present and
non-empty. -/
def truthyStr : Option String → Bool
  | none => false
  | some s => !(s = "")

/-- Engine state: `bot.js` line 8, `this.isInitialized = false` in the
constructor, set to `true` only at line 45. -/
structure BotState where
  isInitialized : Bool
  deriving DecidableEq, Repr

/-- The freshly constructed engine (`constructor` of `BitVaultTelegramBot`). -/
def initialBotState : BotState := { isInitialized := false }

/-- Body of a failed provider response (`error.response.body`), after the
code's `JSON.parse` step: either a structured Telegram error object with
`error_code` and `description`, or a body that `JSON.parse` rejects. -/
inductive BodyContent
  | structured (error_code : Int) (description : String)
  | unparsable (raw : String)
  deriving DecidableEq, Repr

/-- A failure thrown by the transport's `sendMessage`: the raw
`error.message` plus the optional `error.response.body`. -/
structure SendError where
  message : String
  body : Option BodyContent
  deriving DecidableEq, Repr

/-- Outcome of one invocation of the transport's `sendMessage`. -/
inductive SendOutcome
  | ok (message_id : Nat)
  | fail (e : SendError)
  deriving DecidableEq, Repr

/-- Observable trace of one `sendMessageWithRetry` call: the value returned
or the error finally thrown, the number of transport invocations, and the
number of `await this.delay(this.retryDelay)` sleeps performed. -/
structure RetryTrace where
  result : Except SendError Nat
  calls : Nat
  sleeps : Nat
  deriving DecidableEq, Repr

/-- From `bot.js` lines 206–227, `sendMessageWithRetry(message, options, attempt)`:
try the send; on failure, if `attempt < this.retryCount` sleep for the fixed
delay and recurse with `attempt + 1`, otherwise rethrow the error unchanged.
The transport is the oracle `send`, indexed by the attempt number;
`retryCount` is `this.retryCount` (3 by default, `bot.js` line 9). -/
def sendMessageWithRetry (send : Nat → SendOutcome) (retryCount : Nat)
    (attempt : Nat) : RetryTrace :=
  match send attempt with
  | .ok mid => { result := .ok mid, calls := 1, sleeps := 0 }
  | .fail e =>
    if h : attempt < retryCount then
      let t := sendMessageWithRetry send retryCount (attempt + 1)
      { result := t.result, calls := t.calls + 1, sleeps := t.sleeps + 1 }
    else
      { result := .error e, calls := 1, sleeps := 0 }
termination_by retryCount + 1 - attempt
decreasing_by omega

/-- A transport that fails deterministically on its first `n` invocations
(attempts `1..n`, with the error allowed to differ per attempt) and succeeds
from invocation `n + 1` on, returning message id `mid`. -/
def failsThenSucceeds (n : Nat) (es : Nat → SendError) (mid : Nat) :
    Nat → SendOutcome :=
  fun i => if i ≤ n then .fail (es i) else .ok mid

/-- The `switch (errorCode)` of `broadcastUpdate`'s catch block
(`bot.js` lines 263–276): the classification the code builds for each
recognized provider status code, and the generic classification carrying the
original code and description for any other code. -/
def classifyTelegramError (code : Int) (descr : String) : String :=
  if code = 400 then "Bad Request: " ++ descr
  else if code = 403 then "Forbidden: Bot lacks permission. " ++ descr
  else if code = 429 then "Rate Limited: Too many requests. " ++ descr
  else if code = 502 ∨ code = 503 ∨ code = 504 then
    "Telegram API temporarily unavailable: " ++ descr
  else "Telegram API Error (" ++ toString code ++ "): " ++ descr

/-- The body of the inner `try` of `broadcastUpdate`'s catch block
(`bot.js` lines 256–276): parse `error.response.body`, then run the
`switch`. Every path of the `switch` throws (each recognized code and the
`default` alike), and an unparsable body makes `JSON.parse` throw, so this
computation always ends in an exception. -/
def parseAndClassify (b : BodyContent) : Except String Unit :=
  match b with
  | .unparsable raw => .error ("Unexpected token in JSON: " ++ raw)
  | .structured code descr => .error (classifyTelegramError code descr)

/-- The catch block of `broadcastUpdate` (`bot.js` lines 251–283), as the message
of the error it finally throws. When `error.response.body` is present the
inner `try` runs `parseAndClassify`; whatever that throws — the `JSON.parse`
failure or the classified error thrown by the `switch` — is caught by the
inner `catch (parseError)`, which only logs it, and control falls through to
line 282: `throw new Error("Failed to broadcast message: " + error.message)`. -/
def broadcastFailureMessage (e : SendError) : String :=
  match e.body with
  | some b =>
    match parseAndClassify b with
    | .error _parseErr => "Failed to broadcast message: " ++ e.message
    | .ok _ => "Failed to broadcast message: " ++ e.message
  | none => "Failed to broadcast message: " ++ e.message

/-- The `message` argument of `broadcastUpdate` as a JavaScript value:
a string, `null`, or any other non-string value. -/
inductive JsValue
  | str (s : String)
  | nullv
  | other
  deriving DecidableEq, Repr

/-- The guard `!message || typeof message !== 'string'` of `bot.js` line 237:
`null` and non-strings are rejected (falsy, or failing the `typeof` test);
a string is rejected iff it is empty (the only falsy string). The code does
NOT trim, so a whitespace-only string passes this guard. -/
def messageInvalid : JsValue → Bool
  | .nullv => true
  | .other => true
  | .str s => s = ""

/-- Result of a `broadcastUpdate` call. -/
inductive BroadcastOutcome
  | configError (msg : String)
  | validationError (msg : String)
  | ok (messageId : Nat)
  | broadcastError (msg : String)
  deriving DecidableEq, Repr

/-- From `bot.js` lines 232–284, `broadcastUpdate(message)`: the initialization
guard, the message-validity guard, then `sendMessageWithRetry` and, on an
exhausted retry budget, the catch block (`broadcastFailureMessage`). The
second component counts transport invocations performed by the call. -/
def broadcastUpdate (st : BotState) (message : JsValue)
    (send : Nat → SendOutcome) (retryCount : Nat) : BroadcastOutcome × Nat :=
  if !st.isInitialized then
    (.configError "Bot not initialized. Call initialize() first.", 0)
  else if messageInvalid message then
    (.validationError "Message must be a non-empty string", 0)
  else
    let t := sendMessageWithRetry send retryCount 1
    match t.result with
    | .ok mid => (.ok mid, t.calls)
    | .error e => (.broadcastError (broadcastFailureMessage e), t.calls)

/-- From `bot.js` lines 16–51, `initialize()`: require a truthy `BOT_TOKEN` and
`CHANNEL_ID`, run the self-identity check `getMe` (its failure propagates
through the outer catch), then run `verifyChannelAccess` inside its own
`try`/`catch` whose catch only logs warnings — the verification outcome
never affects the result. On success `this.isInitialized = true` and the
method returns `true`. The outcome of each external call is a parameter.
(The source method is named `initialize`; that word is a Lean keyword, so
the embedding appends `Engine`.) -/
def initializeEngine (cfg : Config) (getMe : Except String String)
    (verify : Except String Unit) (st : BotState) :
    Except String Bool × BotState :=
  if !truthyStr cfg.botToken then (.error "BOT_TOKEN is required", st)
  else if !truthyStr cfg.channelId then (.error "CHANNEL_ID is required", st)
  else
    match getMe with
    | .error e => (.error e, st)
    | .ok _username =>
      match verify with
      | .ok _ => (.ok true, { st with isInitialized := true })
      | .error _warned => (.ok true, { st with isInitialized := true })

/-- Model of `token.slice(-4)` from `bot.js` line 916, on the character list of the
token: the last `min 4 (length token)` characters (for a token shorter than
four characters, JavaScript's `slice(-4)` returns the whole string). -/
def sliceLast4 (s : String) : String :=
  String.mk (s.data.drop (s.data.length - 4))

/-- The `botToken` field of the engine status snapshot (`bot.js` line 916):
`config.botToken ? '***' + config.botToken.slice(-4) : null`. -/
def maskedBotToken (tok : Option String) : Option String :=
  if truthyStr tok then
    some ("***" ++ sliceLast4 (tok.getD ""))
  else none

/-- The snapshot returned by the engine's `getStatus()` (`bot.js` 913–920). -/
structure EngineStatusSnapshot where
  initialized : Bool
  botToken : Option String
  channelId : Option String
  timestamp : String
  deriving DecidableEq, Repr

/-- From `bot.js` lines 913–920, `getStatus()`: a pure read of the engine state
and configuration. The method body contains only field reads, the ternary
token mask and a timestamp; it is modelled as returning the snapshot
together with the engine state after the call, which the body never
assigns to. -/
def botGetStatus (cfg : Config) (st : BotState) (now : String) :
    EngineStatusSnapshot × BotState :=
  ({ initialized := st.isInitialized
   , botToken := maskedBotToken cfg.botToken
   , channelId := cfg.channelId
   , timestamp := now }, st)

/-- Payload of a scheduled job: custom jobs (`scheduleCustomMessage`) close
over a fixed message string; the built-in daily job (`scheduleDailyUpdate`)
closes over the `sendDailyMarketSummary` generator. -/
inductive JobPayload
  | fixed (message : String)
  | dailySummary
  deriving DecidableEq, Repr

/-- One entry of the scheduler's `this.jobs` map: the `node-cron` job object.
`running`, `lastDate` and `nextDate` are the properties the scheduler's
`getStatus` reads off it (`scheduler.js` lines 144–146); `running` is set by
`job.start()` right after registration. -/
structure Job where
  payload : JobPayload
  running : Bool
  lastDate : Option String
  nextDate : Option String
  deriving DecidableEq, Repr

/-- Model of `this.jobs.get(name)` on the registry, an association list
(JavaScript `Map` keyed by job name): the value at the first entry whose key
equals `name`. -/
def jobsGet : List (String × Job) → String → Option Job
  | [], _ => none
  | p :: ps, name => if p.1 = name then some p.2 else jobsGet ps name

/-- Model of `this.jobs.has(name)`. -/
def jobsHas (jobs : List (String × Job)) (name : String) : Bool :=
  (jobsGet jobs name).isSome

/-- Model of `this.jobs.delete(name)`: remove the entry keyed `name`. -/
def jobsDelete (jobs : List (String × Job)) (name : String) :
    List (String × Job) :=
  jobs.filter (fun p => p.1 ≠ name)

/-- Model of `this.jobs.set(name, job)`: replace the value at `name` if the key is
present, else append a new entry (JavaScript `Map.set` insertion order). -/
def jobsSet (jobs : List (String × Job)) (name : String) (j : Job) :
    List (String × Job) :=
  if jobsHas jobs name then
    jobs.map (fun p => if p.1 = name then (name, j) else p)
  else jobs ++ [(name, j)]

/-- A job as `cron.schedule` plus `job.start()` create it: armed, with no
recorded last/next fire time yet. -/
def freshJob (p : JobPayload) : Job :=
  { payload := p, running := true, lastDate := none, nextDate := none }

/-- Number of registry entries keyed by a given name (a well-formed `Map`
holds at most one; the claims about job counts are stated with it). -/
def countName (jobs : List (String × Job)) (name : String) : Nat :=
  (jobs.filter (fun p => p.1 = name)).length

/-- Scheduler state: `this.jobs` and `this.isRunning`
(`scheduler.js` lines 8–9). -/
structure SchedState where
  jobs : List (String × Job)
  isRunning : Bool
  deriving DecidableEq, Repr

/-- Side effects of a registration call, in order: the replaced job being
stopped (`this.jobs.get(name).stop()`, line 78), and the new job being
started (`job.start()`, line 100). -/
inductive SchedEvent
  | stoppedJob (name : String) (payload : JobPayload)
  | startedJob (name : String) (payload : JobPayload)
  deriving DecidableEq, Repr

/-- Result of a scheduler registration call: `true` on success, or the
`SchedulingError` rethrown by the outer catch (`scheduler.js` line 106). -/
inductive SchedResult
  | ok
  | schedulingError (msg : String)
  deriving DecidableEq, Repr

/-- From `scheduler.js` lines 70–108, `scheduleCustomMessage(name, cronExpression,
message, options)`: validate the cron expression against the `node-cron`
grammar (the external validator is the parameter `validate`); on failure the
thrown error is logged by the outer catch and rethrown, with no state change.
Otherwise an existing job with the same name is stopped and deleted, a fresh
job whose body broadcasts `message` is registered under `name`, and started.
Returns the result, the new state, and the side-effect events in order. -/
def scheduleCustomMessage (validate : String → Bool) (st : SchedState)
    (name cronExpression message : String) :
    SchedResult × SchedState × List SchedEvent :=
  if !validate cronExpression then
    (.schedulingError ("Invalid cron expression: " ++ cronExpression), st, [])
  else
    let stopEvents :=
      match jobsGet st.jobs name with
      | some old => [SchedEvent.stoppedJob name old.payload]
      | none => []
    let jobs1 := if jobsHas st.jobs name then jobsDelete st.jobs name
                 else st.jobs
    let j : Job := { payload := .fixed message, running := true
                   , lastDate := none, nextDate := none }
    (.ok, { st with jobs := jobsSet jobs1 name j },
     stopEvents ++ [SchedEvent.startedJob name (.fixed message)])

/-- From `scheduler.js` lines 36–65, `scheduleDailyUpdate()`: validate the
configured cron expression (throw on failure), register the built-in job
under the name `"dailyUpdate"` with the daily-summary generator as body, and
start it. -/
def scheduleDailyUpdate (validate : String → Bool) (st : SchedState)
    (cronExpression : String) : SchedResult × SchedState :=
  if !validate cronExpression then
    (.schedulingError ("Invalid cron expression: " ++ cronExpression), st)
  else
    let j : Job := { payload := .dailySummary, running := true
                   , lastDate := none, nextDate := none }
    (.ok, { st with jobs := jobsSet st.jobs "dailyUpdate" j })

/-- From `scheduler.js` lines 113–121, `stopJob(name)`: if the registry has the
name, stop the job, delete the entry and return `true`; otherwise return
`false` with no state change. -/
def stopJob (st : SchedState) (name : String) : Bool × SchedState :=
  if jobsHas st.jobs name then
    (true, { st with jobs := jobsDelete st.jobs name })
  else
    (false, st)

/-- Per-job entry of the scheduler's `getStatus()` snapshot:
`running: job.running || false`, `lastDate: job.lastDate || null`,
`nextDate: job.nextDate || null` (`scheduler.js` lines 143–147). -/
structure JobStatus where
  running : Bool
  lastDate : Option String
  nextDate : Option String
  deriving DecidableEq, Repr

/-- The scheduler's `getStatus()` snapshot (`scheduler.js` lines 150–155). -/
structure SchedStatusSnapshot where
  isRunning : Bool
  jobCount : Nat
  jobs : List (String × JobStatus)
  timezone : String
  deriving DecidableEq, Repr

/-- From `scheduler.js` lines 140–156, `getStatus()`: a pure read over
`this.jobs`, `this.isRunning` and the configured timezone; modelled as
returning the snapshot together with the scheduler state after the call,
which the body never assigns to. -/
def schedGetStatus (st : SchedState) (timezone : String) :
    SchedStatusSnapshot × SchedState :=
  ({ isRunning := st.isRunning
   , jobCount := st.jobs.length
   , jobs := st.jobs.map (fun p =>
       (p.1, { running := p.2.running, lastDate := p.2.lastDate
             , nextDate := p.2.nextDate }))
   , timezone := timezone }, st)

/-- The `try`/`catch` shared by both job bodies — `scheduler.js` lines 47–55
(daily job, around `sendDailyMarketSummary()`) and lines 87–93 (custom job,
around `broadcastUpdate(message)`). The parameter is the outcome of the
underlying awaited call; the first component is what escapes the timer
callback, the second the log lines written. On failure the catch logs the
error and calls `handleScheduledTaskError` (which itself only logs);
nothing is rethrown, so the escape component is always `ok`. -/
def scheduledJobBody (underlying : Except String Unit) :
    Except String Unit × List String :=
  match underlying with
  | .ok _ => (.ok (), ["sent successfully"])
  | .error m =>
    (.ok (), ["Failed to send scheduled message: " ++ m,
              "Scheduled task failed: " ++ m])

/-- The outcome a `broadcastUpdate` call presents to the `await` in a job
body: `ok` on success, or the thrown error's message. -/
def broadcastOutcomeToExcept : BroadcastOutcome → Except String Unit
  | .ok _ => .ok ()
  | .configError m => .error m
  | .validationError m => .error m
  | .broadcastError m => .error m

/-- One cron firing of the job registered under `name` in state `st`:
`node-cron` invokes the job's callback, whose body is `scheduledJobBody`
around the broadcast call; the callback closes over the message only — it
never touches `this.jobs` — so the registry component is returned as the
body leaves it: untouched. Returns the post-firing state, what escaped the
callback (`none` components if the name is not registered: nothing fires),
and the message the body passed to `broadcastUpdate`, if any. -/
def fireRegisteredJob (st : SchedState) (name : String)
    (broadcast : String → BroadcastOutcome)
    (dailyOutcome : Except String Unit) :
    SchedState × Option (Except String Unit) × Option String :=
  match jobsGet st.jobs name with
  | none => (st, none, none)
  | some j =>
    match j.payload with
    | .fixed m =>
      (st, some (scheduledJobBody (broadcastOutcomeToExcept (broadcast m))).1,
       some m)
    | .dailySummary =>
      (st, some (scheduledJobBody dailyOutcome).1, none)

/-- Repeated firings: `n` consecutive firings of the job under `name`, the `i`-th
firing's underlying broadcast outcome drawn from `outcomes`. Returns the
final state and the list of what escaped each firing's callback. -/
def fireJobRepeatedly (st : SchedState) (name : String)
    (broadcasts : List (String → BroadcastOutcome))
    (dailyOutcome : Except String Unit) :
    SchedState × List (Option (Except String Unit)) :=
  match broadcasts with
  | [] => (st, [])
  | b :: bs =>
    let r := fireRegisteredJob st name b dailyOutcome
    let rest := fireJobRepeatedly r.1 name bs dailyOutcome
    (rest.1, r.2.1 :: rest.2)

/-! Retry behaviour: the inner send loop. -/

-- Closed form for the retry loop over a fails-then-succeeds transport,
-- as a function of the starting attempt number.
theorem sendRetry_aux (n maxA : Nat) (es : Nat → SendError) (mid : Nat) :
    ∀ k a, maxA - a = k → 1 ≤ a → a ≤ maxA → a ≤ n + 1 →
      ((sendMessageWithRetry (failsThenSucceeds n es mid) maxA a).calls
          = min (n + 1) maxA + 1 - a)
      ∧ (sendMessageWithRetry (failsThenSucceeds n es mid) maxA a).sleeps
          = (sendMessageWithRetry (failsThenSucceeds n es mid) maxA a).calls - 1
      ∧ (maxA ≤ n →
          (sendMessageWithRetry (failsThenSucceeds n es mid) maxA a).result
            = .error (es maxA))
      ∧ (n < maxA →
          (sendMessageWithRetry (failsThenSucceeds n es mid) maxA a).result
            = .ok mid) := by
  intro k
  induction k with
  | zero =>
    intro a hk h1 hle hn
    have ha : a = maxA := by omega
    rw [sendMessageWithRetry]
    by_cases hna : maxA ≤ n
    · have hfail : failsThenSucceeds n es mid a = .fail (es a) := by
        simp only [failsThenSucceeds, if_pos (by omega : a ≤ n)]
      rw [hfail]
      dsimp only
      rw [dif_neg (by omega)]
      refine ⟨by dsimp only; omega, by dsimp only, fun _ => by dsimp only; rw [ha],
        fun h => absurd h (by omega)⟩
    · have hok : failsThenSucceeds n es mid a = .ok mid := by
        simp only [failsThenSucceeds, if_neg (by omega : ¬ a ≤ n)]
      rw [hok]
      dsimp only
      refine ⟨by omega, rfl, fun h => absurd h (by omega), fun _ => rfl⟩
  | succ k ih =>
    intro a hk h1 hle hn
    have halt : a < maxA := by omega
    rw [sendMessageWithRetry]
    by_cases han : a ≤ n
    · have hfail : failsThenSucceeds n es mid a = .fail (es a) := by
        simp only [failsThenSucceeds, if_pos han]
      rw [hfail]
      dsimp only
      rw [dif_pos halt]
      obtain ⟨ih1, ih2, ih3, ih4⟩ := ih (a + 1) (by omega) (by omega) (by omega) (by omega)
      dsimp only
      refine ⟨by rw [ih1]; omega, by rw [ih1, ih2]; omega, fun h => by rw [ih3 h],
        fun h => by rw [ih4 h]⟩
    · have hok : failsThenSucceeds n es mid a = .ok mid := by
        simp only [failsThenSucceeds, if_neg han]
      rw [hok]
      dsimp only
      refine ⟨by omega, rfl, fun h => absurd h (by omega), fun _ => rfl⟩

/-- C3: against a transport that fails deterministically on its first `n`
invocations and succeeds on invocation `n + 1`, `broadcastUpdate` (on an
initialized engine with a valid message) invokes the underlying send exactly
`min (n + 1) maxAttempts` times, sleeps the fixed inter-attempt delay exactly
once between consecutive attempts (`calls - 1` sleeps), and, when
`n + 1 > maxAttempts`, the retry loop propagates the final attempt's failure
unchanged after exactly `maxAttempts` attempts; when `n + 1 ≤ maxAttempts`
the broadcast succeeds. -/
theorem broadcastUpdate_retry_budget (n maxA mid : Nat) (es : Nat → SendError)
    (m : String) (hmax : 1 ≤ maxA) (hm : ¬ m = "") :
    (broadcastUpdate ⟨true⟩ (.str m) (failsThenSucceeds n es mid) maxA).2
        = min (n + 1) maxA
    ∧ (sendMessageWithRetry (failsThenSucceeds n es mid) maxA 1).sleeps
        = min (n + 1) maxA - 1
    ∧ (maxA < n + 1 →
        (sendMessageWithRetry (failsThenSucceeds n es mid) maxA 1).result
          = .error (es maxA)
        ∧ (broadcastUpdate ⟨true⟩ (.str m) (failsThenSucceeds n es mid) maxA).1
          = .broadcastError (broadcastFailureMessage (es maxA)))
    ∧ (n + 1 ≤ maxA →
        (broadcastUpdate ⟨true⟩ (.str m) (failsThenSucceeds n es mid) maxA).1
          = .ok mid) := by
  obtain ⟨h1, h2, h3, h4⟩ :=
    sendRetry_aux n maxA es mid (maxA - 1) 1 (by omega) le_rfl hmax (by omega)
  have hbu : broadcastUpdate ⟨true⟩ (.str m) (failsThenSucceeds n es mid) maxA
      = (match (sendMessageWithRetry (failsThenSucceeds n es mid) maxA 1).result with
         | .ok k => (.ok k, (sendMessageWithRetry (failsThenSucceeds n es mid) maxA 1).calls)
         | .error e => (.broadcastError (broadcastFailureMessage e),
             (sendMessageWithRetry (failsThenSucceeds n es mid) maxA 1).calls)) := by
    simp [broadcastUpdate, messageInvalid, hm]
  refine ⟨?_, ?_, fun h => ?_, fun h => ?_⟩
  · rw [hbu]
    cases hres : (sendMessageWithRetry (failsThenSucceeds n es mid) maxA 1).result <;>
      dsimp only <;> rw [h1] <;> omega
  · rw [h2, h1]; omega
  · have hre := h3 (by omega)
    refine ⟨hre, ?_⟩
    rw [hbu, hre]
  · have hre := h4 (by omega)
    rw [hbu, hre]

/-- Witness for C3 at `n = 5`, `maxAttempts = 3`: exactly 3 transport calls,
2 sleeps, and the third attempt's error propagated unchanged. -/
theorem broadcastUpdate_retry_budget_witness :
    1 ≤ 3 ∧ ¬ "hi" = "" ∧
    ((broadcastUpdate ⟨true⟩ (.str "hi")
        (failsThenSucceeds 5 (fun i => SendError.mk (toString i) none) 7) 3).2
      = min (5 + 1) 3
    ∧ (sendMessageWithRetry
        (failsThenSucceeds 5 (fun i => SendError.mk (toString i) none) 7) 3 1).sleeps
      = min (5 + 1) 3 - 1
    ∧ (3 < 5 + 1 →
        (sendMessageWithRetry
          (failsThenSucceeds 5 (fun i => SendError.mk (toString i) none) 7) 3 1).result
          = .error (SendError.mk (toString 3) none)
        ∧ (broadcastUpdate ⟨true⟩ (.str "hi")
            (failsThenSucceeds 5 (fun i => SendError.mk (toString i) none) 7) 3).1
          = .broadcastError (broadcastFailureMessage (SendError.mk (toString 3) none)))
    ∧ (5 + 1 ≤ 3 →
        (broadcastUpdate ⟨true⟩ (.str "hi")
          (failsThenSucceeds 5 (fun i => SendError.mk (toString i) none) 7) 3).1
          = .ok 7)) :=
  ⟨by decide, by decide,
   broadcastUpdate_retry_budget 5 3 7 (fun i => SendError.mk (toString i) none) "hi"
     (by decide) (by decide)⟩

/-! Error classification (C1). -/

/-- C1: the classification table never reaches the caller. At a provider
failure that persists through the whole retry budget and carries a parsable
structured body with `error_code: 429`, `broadcastUpdate` raises the generic
`Failed to broadcast message: <raw message>` error — not the
`Rate Limited` classification that the `switch` statement builds (second and
third conjuncts: the `switch` does construct the classified message, and the
inner `try` body does throw it) — because the classified error thrown inside
the inner `try` is caught by its own `catch (parseError)` clause and only
logged. -/
theorem broadcastUpdate_classification_swallowed :
    (broadcastUpdate { isInitialized := true } (.str "hello")
      (fun _ => .fail { message := "ETELEGRAM: 429 Too Many Requests"
                      , body := some (.structured 429 "Too Many Requests: retry after 30") }) 3)
      = (.broadcastError "Failed to broadcast message: ETELEGRAM: 429 Too Many Requests", 3)
    ∧ classifyTelegramError 429 "Too Many Requests: retry after 30"
      = "Rate Limited: Too many requests. Too Many Requests: retry after 30"
    ∧ parseAndClassify (.structured 429 "Too Many Requests: retry after 30")
      = .error "Rate Limited: Too many requests. Too Many Requests: retry after 30" := by
  refine ⟨?_, by decide, by decide⟩
  simp [broadcastUpdate, sendMessageWithRetry, messageInvalid, broadcastFailureMessage,
    parseAndClassify, classifyTelegramError]

/-! Precondition gating (C2). -/

/-- C2 counterexample: a whitespace-only message is NOT rejected. On an
initialized engine, `broadcastUpdate("   ")` passes the
`!message || typeof message !== 'string'` guard (a non-empty string is
truthy; nothing is trimmed), performs one transport call and succeeds —
the claim demands a `ValidationError` and zero network calls. -/
theorem broadcastUpdate_whitespace_not_rejected :
    broadcastUpdate { isInitialized := true } (.str "   ") (fun _ => .ok 42) 3
      = (.ok 42, 1) := by
  simp [broadcastUpdate, sendMessageWithRetry, messageInvalid]

/-- C2 (amended): an empty-string, `null` or other non-string message on an
initialized engine raises the `ValidationError` with zero transport calls;
any call on an uninitialized engine raises the `ConfigurationError` with
zero transport calls, whatever the message. (Whitespace-only non-empty
messages are not rejected — see the counterexample.) -/
theorem broadcastUpdate_precondition_gating (st : BotState) (msg : JsValue)
    (send : Nat → SendOutcome) (rc : Nat) :
    (st.isInitialized = false →
      broadcastUpdate st msg send rc
        = (.configError "Bot not initialized. Call initialize() first.", 0))
    ∧ (st.isInitialized = true → (msg = .nullv ∨ msg = .other ∨ msg = .str "") →
      broadcastUpdate st msg send rc
        = (.validationError "Message must be a non-empty string", 0)) := by
  constructor
  · intro h
    simp [broadcastUpdate, h]
  · intro h hm
    rcases hm with rfl | rfl | rfl <;> simp [broadcastUpdate, h, messageInvalid]

/-- Witness for C2 (amended): before initialization and at the empty
message. -/
theorem broadcastUpdate_precondition_gating_witness :
    broadcastUpdate ⟨false⟩ (.str "hello") (fun _ => .ok 1) 3
      = (.configError "Bot not initialized. Call initialize() first.", 0)
    ∧ broadcastUpdate ⟨true⟩ (.str "") (fun _ => .ok 1) 3
      = (.validationError "Message must be a non-empty string", 0) :=
  ⟨(broadcastUpdate_precondition_gating ⟨false⟩ (.str "hello") (fun _ => .ok 1) 3).1 rfl,
   (broadcastUpdate_precondition_gating ⟨true⟩ (.str "") (fun _ => .ok 1) 3).2 rfl
     (Or.inr (Or.inr rfl))⟩

/-! Registry lemmas: the association-list model of the jobs Map. -/

theorem jobsGet_jobsDelete (jobs : List (String × Job)) (name n : String) :
    jobsGet (jobsDelete jobs name) n
      = if n = name then none else jobsGet jobs n := by
  induction jobs with
  | nil => by_cases hn : n = name <;> simp [jobsDelete, jobsGet, hn]
  | cons p ps ih =>
    by_cases hp : p.1 = name <;> by_cases hn : n = name <;>
      by_cases hpn : p.1 = n <;>
      simp_all [jobsDelete, List.filter_cons, jobsGet]

theorem jobsGet_append (xs ys : List (String × Job)) (n : String) :
    jobsGet (xs ++ ys) n
      = match jobsGet xs n with
        | some v => some v
        | none => jobsGet ys n := by
  induction xs with
  | nil => simp [jobsGet]
  | cons p ps ih => by_cases hp : p.1 = n <;> simp [jobsGet, hp, ih]

theorem jobsGet_mapReplace (jobs : List (String × Job)) (name n : String) (j : Job) :
    jobsGet (jobs.map (fun p => if p.1 = name then (name, j) else p)) n
      = if n = name then (if jobsHas jobs name then some j else none)
        else jobsGet jobs n := by
  induction jobs with
  | nil => by_cases hn : n = name <;> simp [jobsGet, jobsHas, hn]
  | cons p ps ih =>
    by_cases hp : p.1 = name <;> by_cases hn : n = name <;>
      by_cases hpn : p.1 = n <;>
      simp_all [jobsGet, jobsHas, List.map_cons]

theorem jobsGet_jobsSet (jobs : List (String × Job)) (name n : String) (j : Job) :
    jobsGet (jobsSet jobs name j) n
      = if n = name then some j else jobsGet jobs n := by
  by_cases hh : jobsHas jobs name
  · simp only [jobsSet, hh, if_true]
    rw [jobsGet_mapReplace]
    simp [hh]
  · simp only [jobsSet, hh, Bool.false_eq_true, if_false]
    rw [jobsGet_append]
    by_cases hn : n = name
    · subst hn
      have : jobsGet jobs n = none := by
        by_contra hc
        exact hh (by simp [jobsHas, Option.isSome_iff_ne_none, hc])
      simp [this, jobsGet]
    · have hn2 : ¬ name = n := fun h => hn h.symm
      cases hg : jobsGet jobs n <;> simp [jobsGet, hn, hn2, hg]

theorem countName_of_get_none (jobs : List (String × Job)) (n : String)
    (h : jobsGet jobs n = none) : countName jobs n = 0 := by
  induction jobs with
  | nil => rfl
  | cons p ps ih =>
    by_cases hp : p.1 = n
    · simp [jobsGet, hp] at h
    · simp [jobsGet, hp] at h
      simp [countName, List.filter_cons, hp, ih h] at ih ⊢
      exact ih h

theorem countName_append_one (jobs : List (String × Job)) (name : String) (j : Job) :
    countName (jobs ++ [(name, j)]) name = countName jobs name + 1 := by
  simp [countName, List.filter_append, List.filter_cons]

theorem countName_jobsDelete (jobs : List (String × Job)) (name : String) :
    countName (jobsDelete jobs name) name = 0 :=
  countName_of_get_none _ _ (by rw [jobsGet_jobsDelete]; simp)

/-! Stopping jobs (C4). -/

/-- C4: `stopJob(name)` returns `true` and removes exactly the named entry
when it is registered (other names' lookups are untouched); returns `false`
with the whole state unmodified when it is not; and a second `stopJob` with
the same name right after returns `false`. -/
theorem stopJob_spec (st : SchedState) (name : String) :
    (jobsHas st.jobs name = true →
      (stopJob st name).1 = true
      ∧ jobsGet (stopJob st name).2.jobs name = none
      ∧ ∀ n, ¬ n = name → jobsGet (stopJob st name).2.jobs n = jobsGet st.jobs n)
    ∧ (jobsHas st.jobs name = false → stopJob st name = (false, st))
    ∧ (stopJob (stopJob st name).2 name).1 = false := by
  refine ⟨fun h => ?_, fun h => ?_, ?_⟩
  · refine ⟨by simp [stopJob, h], by simp [stopJob, h, jobsGet_jobsDelete],
      fun n hn => by simp [stopJob, h, jobsGet_jobsDelete, hn]⟩
  · simp [stopJob, h]
  · by_cases h : jobsHas st.jobs name
    · have hdel : jobsHas (jobsDelete st.jobs name) name = false := by
        simp [jobsHas, jobsGet_jobsDelete]
      simp [stopJob, h, hdel]
    · have h2 : jobsHas st.jobs name = false := by simpa using h
      simp [stopJob, h2]

/-- Witness for C4 in a one-job registry: stop succeeds, stop of a missing
name is a no-op `false`, and the repeated stop returns `false`. -/
theorem stopJob_spec_witness :
    (stopJob ⟨[("x", ⟨.fixed "m", true, none, none⟩)], true⟩ "x").1 = true
    ∧ stopJob ⟨[("x", ⟨.fixed "m", true, none, none⟩)], true⟩ "nonexistent"
      = (false, ⟨[("x", ⟨.fixed "m", true, none, none⟩)], true⟩)
    ∧ (stopJob (stopJob ⟨[("x", ⟨.fixed "m", true, none, none⟩)], true⟩ "x").2 "x").1
      = false :=
  ⟨((stopJob_spec ⟨[("x", ⟨.fixed "m", true, none, none⟩)], true⟩ "x").1 (by decide)).1,
   (stopJob_spec ⟨[("x", ⟨.fixed "m", true, none, none⟩)], true⟩ "nonexistent").2.1 (by decide),
   (stopJob_spec ⟨[("x", ⟨.fixed "m", true, none, none⟩)], true⟩ "x").2.2⟩

/-! Cron validation (C5). -/

/-- C5: a registration whose cron expression fails grammar validation raises
the `SchedulingError` and leaves the registry exactly as it was: the state
is returned unchanged, no events (no job stopped or started), the job count
is preserved, and the lookup under the registered name is untouched. -/
theorem scheduleCustomMessage_invalid_cron (validate : String → Bool)
    (st : SchedState) (name expr msg : String) (h : validate expr = false) :
    scheduleCustomMessage validate st name expr msg
      = (.schedulingError ("Invalid cron expression: " ++ expr), st, [])
    ∧ (scheduleCustomMessage validate st name expr msg).2.1.jobs.length
      = st.jobs.length
    ∧ jobsGet (scheduleCustomMessage validate st name expr msg).2.1.jobs name
      = jobsGet st.jobs name := by
  have he : scheduleCustomMessage validate st name expr msg
      = (.schedulingError ("Invalid cron expression: " ++ expr), st, []) := by
    simp [scheduleCustomMessage, h]
  refine ⟨he, ?_, ?_⟩ <;> rw [he]

/-- Witness for C5: `scheduleCustomMessage("x", "not-a-cron", "msg")` on a
rejecting validator and an empty registry. -/
theorem scheduleCustomMessage_invalid_cron_witness :
    scheduleCustomMessage (fun _ => false) ⟨[], false⟩ "x" "not-a-cron" "msg"
      = (.schedulingError ("Invalid cron expression: " ++ "not-a-cron"), ⟨[], false⟩, [])
    ∧ (scheduleCustomMessage (fun _ => false) ⟨[], false⟩ "x" "not-a-cron" "msg").2.1.jobs.length
      = (⟨[], false⟩ : SchedState).jobs.length
    ∧ jobsGet (scheduleCustomMessage (fun _ => false) ⟨[], false⟩ "x" "not-a-cron" "msg").2.1.jobs "x"
      = jobsGet (⟨[], false⟩ : SchedState).jobs "x" :=
  scheduleCustomMessage_invalid_cron (fun _ => false) ⟨[], false⟩ "x" "not-a-cron" "msg" rfl

/-! Replace semantics (C6). -/

-- The successful branch of scheduleCustomMessage, as one equation.
theorem scheduleCustomMessage_valid (validate : String → Bool) (st : SchedState)
    (name expr msg : String) (h : validate expr = true) :
    scheduleCustomMessage validate st name expr msg
      = (.ok,
         { st with jobs := (jobsSet (if jobsHas st.jobs name then jobsDelete st.jobs name else st.jobs) name (freshJob (.fixed msg))) },
         (match jobsGet st.jobs name with
          | some old => [SchedEvent.stoppedJob name old.payload]
          | none => []) ++ [SchedEvent.startedJob name (.fixed msg)]) := by
  simp [scheduleCustomMessage, h, freshJob]

-- A valid registration over a name that is already present: the old job is
-- stopped first, and the new job fully supersedes it.
theorem scheduleCustomMessage_on_present (validate : String → Bool) (st1 : SchedState)
    (name expr msg : String) (j1 : Job) (h : validate expr = true)
    (hg : jobsGet st1.jobs name = some j1)
    (broadcast : String → BroadcastOutcome) (d : Except String Unit) :
    countName (scheduleCustomMessage validate st1 name expr msg).2.1.jobs name = 1
    ∧ jobsGet (scheduleCustomMessage validate st1 name expr msg).2.1.jobs name
      = some (freshJob (.fixed msg))
    ∧ (scheduleCustomMessage validate st1 name expr msg).2.2
      = [.stoppedJob name j1.payload, .startedJob name (.fixed msg)]
    ∧ (fireRegisteredJob (scheduleCustomMessage validate st1 name expr msg).2.1 name
        broadcast d).2.2 = some msg := by
  have hhas : jobsHas st1.jobs name = true := by simp [jobsHas, hg]
  rw [scheduleCustomMessage_valid validate st1 name expr msg h]
  dsimp only
  rw [hg]
  simp only [hhas, if_true]
  have hnodel : jobsHas (jobsDelete st1.jobs name) name = false := by
    simp [jobsHas, jobsGet_jobsDelete]
  refine ⟨?_, ?_, rfl, ?_⟩
  · simp only [jobsSet, hnodel, Bool.false_eq_true, if_false]
    rw [countName_append_one, countName_jobsDelete]
  · rw [jobsGet_jobsSet]
    simp
  · have hg2 : jobsGet (jobsSet (jobsDelete st1.jobs name) name
        (freshJob (.fixed msg))) name = some (freshJob (.fixed msg)) := by
      rw [jobsGet_jobsSet]; simp
    simp only [fireRegisteredJob, freshJob] at hg2 ⊢
    rw [hg2]

/-- C6: two valid registrations under the same name, from any starting
registry, leave exactly one registered job under that name; the second call's
event trace first stops the first registration's job and then starts the new
one; the surviving job carries the second message, and a subsequent firing of
the job registered under that name passes the second message — not the
first — to `broadcastUpdate`. -/
theorem scheduleCustomMessage_replace (validate : String → Bool) (st : SchedState)
    (name e1 m1 e2 m2 : String) (h1 : validate e1 = true) (h2 : validate e2 = true)
    (broadcast : String → BroadcastOutcome) (d : Except String Unit) :
    countName (scheduleCustomMessage validate
        (scheduleCustomMessage validate st name e1 m1).2.1 name e2 m2).2.1.jobs name = 1
    ∧ jobsGet (scheduleCustomMessage validate
        (scheduleCustomMessage validate st name e1 m1).2.1 name e2 m2).2.1.jobs name
      = some (freshJob (.fixed m2))
    ∧ (scheduleCustomMessage validate
        (scheduleCustomMessage validate st name e1 m1).2.1 name e2 m2).2.2
      = [.stoppedJob name (.fixed m1), .startedJob name (.fixed m2)]
    ∧ (fireRegisteredJob (scheduleCustomMessage validate
        (scheduleCustomMessage validate st name e1 m1).2.1 name e2 m2).2.1 name
        broadcast d).2.2 = some m2 := by
  have hget1 : jobsGet (scheduleCustomMessage validate st name e1 m1).2.1.jobs name
      = some (freshJob (.fixed m1)) := by
    rw [scheduleCustomMessage_valid validate st name e1 m1 h1]
    dsimp only
    rw [jobsGet_jobsSet]
    simp
  exact scheduleCustomMessage_on_present validate _ name e2 m2 _ h2 hget1 broadcast d

/-- Witness for C6: register `"x"` twice on an always-accepting validator
from the empty registry; the survivor carries `"second"` and fires it. -/
theorem scheduleCustomMessage_replace_witness :
    countName (scheduleCustomMessage (fun _ => true)
        (scheduleCustomMessage (fun _ => true) ⟨[], false⟩ "x" "* * * * *" "first").2.1
        "x" "0 9 * * *" "second").2.1.jobs "x" = 1
    ∧ jobsGet (scheduleCustomMessage (fun _ => true)
        (scheduleCustomMessage (fun _ => true) ⟨[], false⟩ "x" "* * * * *" "first").2.1
        "x" "0 9 * * *" "second").2.1.jobs "x"
      = some (freshJob (.fixed "second"))
    ∧ (scheduleCustomMessage (fun _ => true)
        (scheduleCustomMessage (fun _ => true) ⟨[], false⟩ "x" "* * * * *" "first").2.1
        "x" "0 9 * * *" "second").2.2
      = [.stoppedJob "x" (.fixed "first"), .startedJob "x" (.fixed "second")]
    ∧ (fireRegisteredJob (scheduleCustomMessage (fun _ => true)
        (scheduleCustomMessage (fun _ => true) ⟨[], false⟩ "x" "* * * * *" "first").2.1
        "x" "0 9 * * *" "second").2.1 "x" (fun _ => .ok 1) (.ok ())).2.2 = some "second" :=
  scheduleCustomMessage_replace (fun _ => true) ⟨[], false⟩ "x" "* * * * *" "first"
    "0 9 * * *" "second" rfl rfl (fun _ => .ok 1) (.ok ())

/-! Initialization (C7). -/

/-- C7: `initialize()` succeeds and sets `initialized = true` whenever the
two credential presence checks and the `getMe` self-identity check succeed,
for EVERY outcome of the channel-access verification (`verify` is
universally quantified, so a failing verification is swallowed); it
throws — returning the engine state unchanged, hence still uninitialized
when starting from the fresh state — exactly on a missing credential or on
a failing self-identity check. -/
theorem initializeEngine_spec (cfg : Config) (getMe : Except String String)
    (verify : Except String Unit) (st : BotState) :
    (truthyStr cfg.botToken = false →
      initializeEngine cfg getMe verify st = (.error "BOT_TOKEN is required", st))
    ∧ (truthyStr cfg.botToken = true → truthyStr cfg.channelId = false →
      initializeEngine cfg getMe verify st = (.error "CHANNEL_ID is required", st))
    ∧ (∀ u, truthyStr cfg.botToken = true → truthyStr cfg.channelId = true →
        getMe = .ok u →
        initializeEngine cfg getMe verify st = (.ok true, { isInitialized := true }))
    ∧ (∀ e, truthyStr cfg.botToken = true → truthyStr cfg.channelId = true →
        getMe = .error e →
        initializeEngine cfg getMe verify st = (.error e, st)) := by
  refine ⟨fun h => ?_, fun h1 h2 => ?_, fun u h1 h2 hg => ?_, fun e h1 h2 hg => ?_⟩
  · simp [initializeEngine, h]
  · simp [initializeEngine, h1, h2]
  · cases verify <;> simp [initializeEngine, h1, h2, hg]
  · simp [initializeEngine, h1, h2, hg]

/-- Witness for C7: success despite a failing channel verification; failure
on a missing token; failure on a failing self-identity check. -/
theorem initializeEngine_spec_witness :
    initializeEngine ⟨some "tok", some "@chan"⟩ (.ok "bot") (.error "403: not admin") ⟨false⟩
      = (.ok true, { isInitialized := true })
    ∧ initializeEngine ⟨none, some "@chan"⟩ (.ok "bot") (.ok ()) ⟨false⟩
      = (.error "BOT_TOKEN is required", ⟨false⟩)
    ∧ initializeEngine ⟨some "tok", some "@chan"⟩
        (.error "ETELEGRAM: 401 Unauthorized") (.ok ()) ⟨false⟩
      = (.error "ETELEGRAM: 401 Unauthorized", ⟨false⟩) :=
  ⟨(initializeEngine_spec ⟨some "tok", some "@chan"⟩ (.ok "bot")
      (.error "403: not admin") ⟨false⟩).2.2.1 "bot" (by decide) (by decide) rfl,
   (initializeEngine_spec ⟨none, some "@chan"⟩ (.ok "bot") (.ok ()) ⟨false⟩).1 (by decide),
   (initializeEngine_spec ⟨some "tok", some "@chan"⟩
      (.error "ETELEGRAM: 401 Unauthorized") (.ok ()) ⟨false⟩).2.2.2
      "ETELEGRAM: 401 Unauthorized" (by decide) (by decide) rfl⟩

/-! Job-body fault isolation (C8). -/

theorem scheduledJobBody_swallows (u : Except String Unit) :
    (scheduledJobBody u).1 = .ok () := by
  cases u <;> rfl

theorem fireRegisteredJob_state_unchanged (st : SchedState) (name : String)
    (b : String → BroadcastOutcome) (d : Except String Unit) :
    (fireRegisteredJob st name b d).1 = st := by
  unfold fireRegisteredJob
  cases jobsGet st.jobs name with
  | none => rfl
  | some j =>
    obtain ⟨pl, rr, ld, nd⟩ := j
    cases pl <;> rfl

theorem fireRegisteredJob_escape (st : SchedState) (name : String)
    (b : String → BroadcastOutcome) (d : Except String Unit) :
    (fireRegisteredJob st name b d).2.1 = none
    ∨ (fireRegisteredJob st name b d).2.1 = some (.ok ()) := by
  unfold fireRegisteredJob
  cases jobsGet st.jobs name with
  | none => exact Or.inl rfl
  | some j =>
    obtain ⟨pl, rr, ld, nd⟩ := j
    cases pl <;> right <;> dsimp only <;> rw [scheduledJobBody_swallows]

theorem fireRegisteredJob_fires (st : SchedState) (name : String)
    (b : String → BroadcastOutcome) (d : Except String Unit)
    (h : jobsHas st.jobs name = true) :
    (fireRegisteredJob st name b d).2.1 = some (.ok ()) := by
  unfold fireRegisteredJob
  cases hg : jobsGet st.jobs name with
  | none => simp [jobsHas, hg] at h
  | some j =>
    obtain ⟨pl, rr, ld, nd⟩ := j
    cases pl <;> dsimp only <;> rw [scheduledJobBody_swallows]

theorem fireJobRepeatedly_state (st : SchedState) (name : String)
    (broadcasts : List (String → BroadcastOutcome)) (d : Except String Unit) :
    (fireJobRepeatedly st name broadcasts d).1 = st := by
  induction broadcasts generalizing st with
  | nil => rfl
  | cons b bs ih =>
    show (fireJobRepeatedly (fireRegisteredJob st name b d).1 name bs d).1 = st
    rw [fireRegisteredJob_state_unchanged]
    exact ih st

theorem fireJobRepeatedly_escapes (st : SchedState) (name : String)
    (broadcasts : List (String → BroadcastOutcome)) (d : Except String Unit) :
    ∀ r ∈ (fireJobRepeatedly st name broadcasts d).2,
      r = none ∨ r = some (.ok ()) := by
  induction broadcasts generalizing st with
  | nil => intro r hr; simp [fireJobRepeatedly] at hr
  | cons b bs ih =>
    intro r hr
    have hcons : (fireJobRepeatedly st name (b :: bs) d).2
        = (fireRegisteredJob st name b d).2.1
          :: (fireJobRepeatedly (fireRegisteredJob st name b d).1 name bs d).2 := rfl
    rw [hcons] at hr
    rcases List.mem_cons.mp hr with h1 | h2
    · subst h1
      exact fireRegisteredJob_escape st name b d
    · exact ih _ r h2

theorem fireJobRepeatedly_fires (st : SchedState) (name : String)
    (broadcasts : List (String → BroadcastOutcome)) (d : Except String Unit)
    (h : jobsHas st.jobs name = true) :
    ∀ r ∈ (fireJobRepeatedly st name broadcasts d).2, r = some (.ok ()) := by
  induction broadcasts generalizing st with
  | nil => intro r hr; simp [fireJobRepeatedly] at hr
  | cons b bs ih =>
    intro r hr
    have hcons : (fireJobRepeatedly st name (b :: bs) d).2
        = (fireRegisteredJob st name b d).2.1
          :: (fireJobRepeatedly (fireRegisteredJob st name b d).1 name bs d).2 := rfl
    rw [hcons] at hr
    rcases List.mem_cons.mp hr with h1 | h2
    · subst h1
      exact fireRegisteredJob_fires st name b d h
    · have hst : (fireRegisteredJob st name b d).1 = st :=
        fireRegisteredJob_state_unchanged st name b d
      exact ih _ (by rw [hst]; exact h) r h2
  
/-- C8: any number of consecutive firings of a registered job — daily or
custom, with every underlying broadcast outcome allowed, including always
failing — leaves the scheduler state exactly as it was (the job is still
registered, with its armed flag and everything else unchanged), and nothing
ever escapes a firing's timer callback: each firing's escape value is `ok`
(or the firing was a no-op because the name was not registered); when the
name is registered, every firing runs and still nothing escapes. -/
theorem scheduled_job_fault_isolation (st : SchedState) (name : String)
    (broadcasts : List (String → BroadcastOutcome)) (d : Except String Unit) :
    (fireJobRepeatedly st name broadcasts d).1 = st
    ∧ jobsGet (fireJobRepeatedly st name broadcasts d).1.jobs name
      = jobsGet st.jobs name
    ∧ (∀ r ∈ (fireJobRepeatedly st name broadcasts d).2,
        r = none ∨ r = some (.ok ()))
    ∧ (jobsHas st.jobs name = true →
        ∀ r ∈ (fireJobRepeatedly st name broadcasts d).2,
          r = some (.ok ())) := by
  refine ⟨fireJobRepeatedly_state st name broadcasts d, ?_,
    fireJobRepeatedly_escapes st name broadcasts d,
    fun h => fireJobRepeatedly_fires st name broadcasts d h⟩
  rw [fireJobRepeatedly_state]

/-- Witness for C8: two consecutive always-failing firings of the armed job
`"x"`; the registry is unchanged and both callbacks swallow the failure. -/
theorem scheduled_job_fault_isolation_witness :
    (fireJobRepeatedly ⟨[("x", freshJob (.fixed "m"))], true⟩ "x"
        [fun _ => .broadcastError "boom", fun _ => .broadcastError "boom"]
        (.error "boom")).1
      = ⟨[("x", freshJob (.fixed "m"))], true⟩
    ∧ jobsGet (fireJobRepeatedly ⟨[("x", freshJob (.fixed "m"))], true⟩ "x"
        [fun _ => .broadcastError "boom", fun _ => .broadcastError "boom"]
        (.error "boom")).1.jobs "x"
      = jobsGet (⟨[("x", freshJob (.fixed "m"))], true⟩ : SchedState).jobs "x"
    ∧ (∀ r ∈ (fireJobRepeatedly ⟨[("x", freshJob (.fixed "m"))], true⟩ "x"
        [fun _ => .broadcastError "boom", fun _ => .broadcastError "boom"]
        (.error "boom")).2, r = none ∨ r = some (.ok ()))
    ∧ (jobsHas (⟨[("x", freshJob (.fixed "m"))], true⟩ : SchedState).jobs "x" = true →
        ∀ r ∈ (fireJobRepeatedly ⟨[("x", freshJob (.fixed "m"))], true⟩ "x"
          [fun _ => .broadcastError "boom", fun _ => .broadcastError "boom"]
          (.error "boom")).2, r = some (.ok ())) :=
  scheduled_job_fault_isolation ⟨[("x", freshJob (.fixed "m"))], true⟩ "x"
    [fun _ => .broadcastError "boom", fun _ => .broadcastError "boom"] (.error "boom")

/-! Status snapshots (C9, C10). -/

/-- C9: both `getStatus` methods are total functions of the current state —
their bodies are pure reads, so the embedding returns a snapshot for every
state, in particular before `initialize()` has ever run, where the engine
snapshot reports `initialized: false` — and neither call changes the engine
or scheduler state. -/
theorem getStatus_total_and_pure (cfg : Config) (st : BotState) (now : String)
    (sst : SchedState) (tz : String) :
    (botGetStatus cfg initialBotState now).1.initialized = false
    ∧ (botGetStatus cfg st now).2 = st
    ∧ (schedGetStatus sst tz).2 = sst :=
  ⟨rfl, rfl, rfl⟩

/-- C10 counterexample: for the two-character token `"ab"` the snapshot's
`botToken` field is `"***" ++ "ab"` — the mask prefix followed by the WHOLE
token, because `slice(-4)` of a string shorter than four characters is the
whole string; the full token is recoverable from this output, contradicting
the claim's quantification over every engine state. -/
theorem maskedBotToken_short_token_exposed :
    maskedBotToken (some "ab") = some ("***" ++ "ab") := by decide

/-- C10 (amended): `botToken` is `null` when no token is configured (missing
or empty); otherwise it is `"***"` followed by exactly the last
`min 4 (length token)` characters of the token. For tokens of length at
least four this reveals only the last four characters and the full token is
not recoverable: a distinct, different token produces the identical
snapshot field. (Tokens shorter than four characters appear in full after
the mask prefix — see the counterexample.) -/
theorem maskedBotToken_spec (t : String) :
    maskedBotToken none = none
    ∧ maskedBotToken (some "") = none
    ∧ (¬ t = "" →
        maskedBotToken (some t) = some ("***" ++ sliceLast4 t)
        ∧ (sliceLast4 t).data = t.data.drop (t.data.length - 4)
        ∧ (sliceLast4 t).data.length = min 4 t.data.length)
    ∧ (4 ≤ t.data.length →
        ∃ t2, ¬ t2 = t ∧ ¬ t2 = ""
          ∧ maskedBotToken (some t2) = maskedBotToken (some t)) := by
  refine ⟨rfl, rfl, fun ht => ⟨?_, rfl, ?_⟩, fun hlen => ?_⟩
  · simp [maskedBotToken, truthyStr, ht]
  · simp only [sliceLast4, List.length_drop]
    omega
  · have ht : ¬ t = "" := by
      intro h0
      rw [h0] at hlen
      simp at hlen
    have ht2 : ¬ String.mk ('x' :: t.data) = "" := by
      intro hEq
      have hd := congrArg String.data hEq
      simp at hd
    refine ⟨String.mk ('x' :: t.data), ?_, ht2, ?_⟩
    · intro hEq
      have hd := congrArg String.data hEq
      have hl := congrArg List.length hd
      simp at hl
    · have hslice : sliceLast4 (String.mk ('x' :: t.data)) = sliceLast4 t := by
        simp only [sliceLast4]
        congr 1
        have h1 : ('x' :: t.data).length - 4 = (t.data.length - 4) + 1 := by
          simp only [List.length_cons]
          omega
        rw [h1, List.drop_succ_cons]
      simp [maskedBotToken, truthyStr, ht, ht2, hslice]

/-- Witness for C10 (amended) at a fifteen-character token: the field is the
mask plus last-four suffix, and another token produces the same field. -/
theorem maskedBotToken_spec_witness :
    maskedBotToken (some "secrettoken1234")
      = some ("***" ++ sliceLast4 "secrettoken1234")
    ∧ ∃ t2, ¬ t2 = "secrettoken1234" ∧ ¬ t2 = ""
        ∧ maskedBotToken (some t2) = maskedBotToken (some "secrettoken1234") :=
  ⟨((maskedBotToken_spec "secrettoken1234").2.2.1 (by decide)).1,
   (maskedBotToken_spec "secrettoken1234").2.2.2 (by decide)⟩

end BitVault
